import Mathlib

/-!
# Signaling relay (`signaling_server/server.js`)

A shallow embedding of the WebSocket signaling server: the process-wide `rooms`
map, the per-connection closure (`currentRoom`, `clientId`), the `message` and
`close` callbacks, and the helpers `broadcastToRoom` and `leaveRoom`.

Modelling conventions.

* A socket object (`ws`) is identified by a natural number; `readyState` is
  supplied by the environment as a function from sockets to states, read at the
  moment a callback runs (Node runs each callback to completion).
* `rooms` (a `Map` from any JavaScript value to a `Set` of sockets) is an
  association list in insertion order; a `Set` is a list in insertion order.
* `ws.send(JSON.stringify(obj))` appends to the `sent` log of the server the
  socket and the JSON object that `JSON.stringify` writes for `obj`: a property
  whose value is `undefined` is left out and a non-finite number is written as
  `null`, at every depth.  The transport is not modelled, and `send` is taken not
  to throw.
* Exceptions raised by the code of the handler itself are modelled: the
  `SyntaxError` of `JSON.parse`, the `TypeError` of reading `data.type` off
  `null`, of calling a method on `undefined`, and of converting `currentRoom` to a
  string inside a template literal.  State changes made before an exception stay.
* `console.log` / `console.error` have no other effect.
* `generateId` draws from `Math.random`; the identifier of a connection is a
  parameter (no uniqueness is assumed).
-/

namespace SignalingServer

/-! ## JavaScript values -/

/-- Values produced by `JSON.parse` (or by reading a missing property).  A finite
number is its exact rational value, so `-0` and `0` coincide, as they do for `Map`
keys, for truthiness and in the text `JSON.stringify` writes; `infinity` is what a
numeral that overflows (such as `1e999`) parses to.  An array or object carries
the reference of the object and its elements or own properties.  A `Map`
compares objects by reference; here two values are the same key when they are
equal, and every `JSON.parse` is taken to yield objects with fresh references. -/
inductive JSValue where
  | undefined
  | null
  | boolean (b : Bool)
  | number (x : ℚ)
  | infinity (negative : Bool)
  | string (s : String)
  | array (ref : Nat) (items : List JSValue)
  | object (ref : Nat) (props : List (String × JSValue))

namespace JSValue

mutual
/-- Decision procedure for equality of values. -/
def decideEq : (v w : JSValue) → Decidable (v = w)
  | undefined, undefined => isTrue rfl
  | undefined, null => isFalse (fun e => JSValue.noConfusion e)
  | undefined, boolean _ => isFalse (fun e => JSValue.noConfusion e)
  | undefined, number _ => isFalse (fun e => JSValue.noConfusion e)
  | undefined, infinity _ => isFalse (fun e => JSValue.noConfusion e)
  | undefined, string _ => isFalse (fun e => JSValue.noConfusion e)
  | undefined, array _ _ => isFalse (fun e => JSValue.noConfusion e)
  | undefined, object _ _ => isFalse (fun e => JSValue.noConfusion e)
  | null, undefined => isFalse (fun e => JSValue.noConfusion e)
  | null, null => isTrue rfl
  | null, boolean _ => isFalse (fun e => JSValue.noConfusion e)
  | null, number _ => isFalse (fun e => JSValue.noConfusion e)
  | null, infinity _ => isFalse (fun e => JSValue.noConfusion e)
  | null, string _ => isFalse (fun e => JSValue.noConfusion e)
  | null, array _ _ => isFalse (fun e => JSValue.noConfusion e)
  | null, object _ _ => isFalse (fun e => JSValue.noConfusion e)
  | boolean _, undefined => isFalse (fun e => JSValue.noConfusion e)
  | boolean _, null => isFalse (fun e => JSValue.noConfusion e)
  | boolean a, boolean b =>
    if h : a = b then isTrue (congrArg boolean h) else isFalse (fun e => h (boolean.inj e))
  | boolean _, number _ => isFalse (fun e => JSValue.noConfusion e)
  | boolean _, infinity _ => isFalse (fun e => JSValue.noConfusion e)
  | boolean _, string _ => isFalse (fun e => JSValue.noConfusion e)
  | boolean _, array _ _ => isFalse (fun e => JSValue.noConfusion e)
  | boolean _, object _ _ => isFalse (fun e => JSValue.noConfusion e)
  | number _, undefined => isFalse (fun e => JSValue.noConfusion e)
  | number _, null => isFalse (fun e => JSValue.noConfusion e)
  | number _, boolean _ => isFalse (fun e => JSValue.noConfusion e)
  | number a, number b =>
    if h : a = b then isTrue (congrArg number h) else isFalse (fun e => h (number.inj e))
  | number _, infinity _ => isFalse (fun e => JSValue.noConfusion e)
  | number _, string _ => isFalse (fun e => JSValue.noConfusion e)
  | number _, array _ _ => isFalse (fun e => JSValue.noConfusion e)
  | number _, object _ _ => isFalse (fun e => JSValue.noConfusion e)
  | infinity _, undefined => isFalse (fun e => JSValue.noConfusion e)
  | infinity _, null => isFalse (fun e => JSValue.noConfusion e)
  | infinity _, boolean _ => isFalse (fun e => JSValue.noConfusion e)
  | infinity _, number _ => isFalse (fun e => JSValue.noConfusion e)
  | infinity a, infinity b =>
    if h : a = b then isTrue (congrArg infinity h) else isFalse (fun e => h (infinity.inj e))
  | infinity _, string _ => isFalse (fun e => JSValue.noConfusion e)
  | infinity _, array _ _ => isFalse (fun e => JSValue.noConfusion e)
  | infinity _, object _ _ => isFalse (fun e => JSValue.noConfusion e)
  | string _, undefined => isFalse (fun e => JSValue.noConfusion e)
  | string _, null => isFalse (fun e => JSValue.noConfusion e)
  | string _, boolean _ => isFalse (fun e => JSValue.noConfusion e)
  | string _, number _ => isFalse (fun e => JSValue.noConfusion e)
  | string _, infinity _ => isFalse (fun e => JSValue.noConfusion e)
  | string a, string b =>
    if h : a = b then isTrue (congrArg string h) else isFalse (fun e => h (string.inj e))
  | string _, array _ _ => isFalse (fun e => JSValue.noConfusion e)
  | string _, object _ _ => isFalse (fun e => JSValue.noConfusion e)
  | array _ _, undefined => isFalse (fun e => JSValue.noConfusion e)
  | array _ _, null => isFalse (fun e => JSValue.noConfusion e)
  | array _ _, boolean _ => isFalse (fun e => JSValue.noConfusion e)
  | array _ _, number _ => isFalse (fun e => JSValue.noConfusion e)
  | array _ _, infinity _ => isFalse (fun e => JSValue.noConfusion e)
  | array _ _, string _ => isFalse (fun e => JSValue.noConfusion e)
  | array r xs, array r' ys =>
    if h : r = r' then
      match decideEqItems xs ys with
      | isTrue h' => isTrue (by rw [h, h'])
      | isFalse h' => isFalse (fun e => h' (array.inj e).2)
    else isFalse (fun e => h (array.inj e).1)
  | array _ _, object _ _ => isFalse (fun e => JSValue.noConfusion e)
  | object _ _, undefined => isFalse (fun e => JSValue.noConfusion e)
  | object _ _, null => isFalse (fun e => JSValue.noConfusion e)
  | object _ _, boolean _ => isFalse (fun e => JSValue.noConfusion e)
  | object _ _, number _ => isFalse (fun e => JSValue.noConfusion e)
  | object _ _, infinity _ => isFalse (fun e => JSValue.noConfusion e)
  | object _ _, string _ => isFalse (fun e => JSValue.noConfusion e)
  | object _ _, array _ _ => isFalse (fun e => JSValue.noConfusion e)
  | object r ps, object r' qs =>
    if h : r = r' then
      match decideEqProps ps qs with
      | isTrue h' => isTrue (by rw [h, h'])
      | isFalse h' => isFalse (fun e => h' (object.inj e).2)
    else isFalse (fun e => h (object.inj e).1)
/-- Decision procedure for equality of element lists. -/
def decideEqItems : (xs ys : List JSValue) → Decidable (xs = ys)
  | [], [] => isTrue rfl
  | [], _ :: _ => isFalse (fun e => List.noConfusion e)
  | _ :: _, [] => isFalse (fun e => List.noConfusion e)
  | x :: xs, y :: ys =>
    match decideEq x y, decideEqItems xs ys with
    | isTrue h, isTrue h' => isTrue (by rw [h, h'])
    | isFalse h, _ => isFalse (fun e => h (List.cons.inj e).1)
    | _, isFalse h' => isFalse (fun e => h' (List.cons.inj e).2)
/-- Decision procedure for equality of property lists. -/
def decideEqProps : (ps qs : List (String × JSValue)) → Decidable (ps = qs)
  | [], [] => isTrue rfl
  | [], _ :: _ => isFalse (fun e => List.noConfusion e)
  | _ :: _, [] => isFalse (fun e => List.noConfusion e)
  | (k, x) :: ps, (l, y) :: qs =>
    if hk : k = l then
      match decideEq x y, decideEqProps ps qs with
      | isTrue h, isTrue h' => isTrue (by rw [hk, h, h'])
      | isFalse h, _ => isFalse (fun e => h (Prod.mk.inj (List.cons.inj e).1).2)
      | _, isFalse h' => isFalse (fun e => h' (List.cons.inj e).2)
    else isFalse (fun e => hk (Prod.mk.inj (List.cons.inj e).1).1)
end

instance : DecidableEq JSValue :=
  decideEq

/-- Result of `ToBoolean`, as used by `if (currentRoom)`. -/
def truthy : JSValue → Bool
  | undefined => false
  | null => false
  | boolean b => b
  | number x => decide (x ≠ 0)
  | infinity _ => true
  | string s => decide (s ≠ "")
  | array _ _ => true
  | object _ _ => true

mutual
/-- Whether interpolating the value in a template literal throws a `TypeError`.
An object parsed from JSON converts through `Object.prototype.toString` unless it
has an own property `toString`; that property is never callable, and neither an
own `valueOf` nor `Object.prototype.valueOf` yields a primitive, so the
conversion throws.  An array converts through `join`, which converts every
element other than `null`. -/
def toStringThrows : JSValue → Bool
  | object _ props => props.any (fun p => decide (p.1 = "toString"))
  | array _ items => itemsThrow items
  | _ => false
/-- Whether converting some element of the list to a string throws. -/
def itemsThrow : List JSValue → Bool
  | [] => false
  | x :: xs => toStringThrows x || itemsThrow xs
end

mutual
/-- The value `JSON.stringify` writes for a value, `none` when it writes nothing
(`undefined`): a non-finite number is written as `null`, arrays and objects are
written element by element and property by property. -/
def stringify : JSValue → Option JSValue
  | undefined => none
  | null => some null
  | boolean b => some (boolean b)
  | number x => some (number x)
  | infinity _ => some null
  | string s => some (string s)
  | array ref items => some (array ref (stringifyItems items))
  | object ref props => some (object ref (stringifyProps props))
/-- Elements as `JSON.stringify` writes them: `null` for an element it cannot
write. -/
def stringifyItems : List JSValue → List JSValue
  | [] => []
  | x :: xs => (stringify x).getD null :: stringifyItems xs
/-- Properties as `JSON.stringify` writes them: a property whose value it cannot
write is left out. -/
def stringifyProps : List (String × JSValue) → List (String × JSValue)
  | [] => []
  | (k, x) :: ps =>
    match stringify x with
    | none => stringifyProps ps
    | some w => (k, w) :: stringifyProps ps
end

mutual
/-- Whether the value holds no non-finite number and no `undefined`, at any
depth. -/
def lossless : JSValue → Bool
  | undefined => false
  | infinity _ => false
  | array _ items => losslessItems items
  | object _ props => losslessProps props
  | _ => true
/-- The same for every element of a list. -/
def losslessItems : List JSValue → Bool
  | [] => true
  | x :: xs => lossless x && losslessItems xs
/-- The same for every value of a property list. -/
def losslessProps : List (String × JSValue) → Bool
  | [] => true
  | (_, x) :: ps => lossless x && losslessProps ps
end

end JSValue

/-- Identity of a `ws` socket object. -/
abbrev Socket := Nat

/-- The `readyState` constants of a WebSocket. -/
inductive ReadyState where
  | CONNECTING
  | OPEN
  | CLOSING
  | CLOSED
  deriving DecidableEq

/-- An object literal, or the JSON object written for one: its properties in
order. -/
abbrev Envelope := List (String × JSValue)

/-! ## `Set` and `Map` -/

/-- A JavaScript `Set` of sockets, in insertion order. -/
abbrev JSSet := List Socket

namespace JSSet

/-- `set.add(ws)`: appends the socket unless it is already an element. -/
def add (s : JSSet) (ws : Socket) : JSSet :=
  if ws ∈ s then s else s ++ [ws]

/-- `set.delete(ws)`: afterwards the socket is not an element. -/
def delete (s : JSSet) (ws : Socket) : JSSet :=
  s.filter (fun x => decide (x ≠ ws))

/-- `set.size`. -/
def size (s : JSSet) : Nat :=
  s.length

end JSSet

/-- The `rooms` map: entries in insertion order. -/
abbrev Rooms := List (JSValue × JSSet)

namespace Rooms

/-- `rooms.get(key)`; `none` stands for `undefined`. -/
def get : Rooms → JSValue → Option JSSet
  | [], _ => none
  | (k, v) :: rest, key => if k = key then some v else get rest key

/-- `rooms.has(key)`. -/
def has : Rooms → JSValue → Bool
  | [], _ => false
  | (k, _) :: rest, key => if k = key then true else has rest key

/-- `rooms.set(key, value)`: replaces the value of an existing entry in place,
or appends a new entry.  Also used for the in-place mutation of the `Set` an
entry holds. -/
def set : Rooms → JSValue → JSSet → Rooms
  | [], key, value => [(key, value)]
  | (k, v) :: rest, key, value =>
    if k = key then (k, value) :: rest else (k, v) :: set rest key value

/-- `rooms.delete(key)`. -/
def delete (rooms : Rooms) (key : JSValue) : Rooms :=
  rooms.filter (fun e => decide (e.1 ≠ key))

/-- Member list of a room; empty when the room is absent. -/
def members (rooms : Rooms) (key : JSValue) : JSSet :=
  (get rooms key).getD []

end Rooms

/-! ## Server state -/

/-- Process-wide state: the `rooms` map and the log of `send` calls, each with the
socket written to and the JSON object written. -/
structure Server where
  rooms : Rooms
  sent : List (Socket × Envelope)
  deriving DecidableEq

/-- Variables captured by the callbacks of one connection. -/
structure Closure where
  ws : Socket
  clientId : String
  currentRoom : JSValue
  deriving DecidableEq

/-- A state together with whether control left by an exception. -/
structure Outcome (σ : Type) where
  state : σ
  threw : Bool

/-- `ws.send(JSON.stringify(obj))`: the log records the JSON object written. -/
def Server.send (sv : Server) (ws : Socket) (obj : Envelope) : Server :=
  { sv with sent := sv.sent ++ [(ws, JSValue.stringifyProps obj)] }

/-- The properties of `JSON.parse(message)` that the handler reads; a property
that is missing (or read off a number, string, boolean or array) is
`undefined`. -/
structure Data where
  type : JSValue
  room : JSValue
  sdp : JSValue
  candidate : JSValue
  deriving DecidableEq

/-- An inbound frame, by what `JSON.parse` makes of it. -/
inductive Frame where
  | unparseable
  | jsonNull
  | json (data : Data)
  deriving DecidableEq

/-! ## The helpers -/

/-- `function broadcastToRoom(room, sender, message)`. -/
def broadcastToRoom (readyState : Socket → ReadyState) (sv : Server) (room : JSValue)
    (sender : Socket) (message : Envelope) : Outcome Server :=
  if Rooms.has sv.rooms room = false then ⟨sv, false⟩
  else
    match Rooms.get sv.rooms room with
    | none => ⟨sv, true⟩
    | some clients =>
      ⟨clients.foldl
        (fun acc client =>
          if client ≠ sender ∧ readyState client = ReadyState.OPEN then acc.send client message
          else acc)
        sv, false⟩

/-- `function leaveRoom(ws, room)`. -/
def leaveRoom (sv : Server) (ws : Socket) (room : JSValue) : Outcome Server :=
  if Rooms.has sv.rooms room then
    match Rooms.get sv.rooms room with
    | none => ⟨sv, true⟩
    | some s =>
      let sv1 : Server := { sv with rooms := Rooms.set sv.rooms room (JSSet.delete s ws) }
      match Rooms.get sv1.rooms room with
      | none => ⟨sv1, true⟩
      | some s1 =>
        if JSSet.size s1 = 0 then ⟨{ sv1 with rooms := Rooms.delete sv1.rooms room }, false⟩
        else ⟨sv1, false⟩
  else ⟨sv, false⟩

/-! ## The callbacks -/

/-- The reply of the `join` case. -/
def joinedEnvelope (room : JSValue) (clientId : String) : Envelope :=
  [("type", JSValue.string "joined"), ("room", room), ("clientId", JSValue.string clientId)]

/-- The reply of the `catch` block. -/
def errorEnvelope : Envelope :=
  [("type", JSValue.string "error"), ("message", JSValue.string "Invalid message format")]

/-- A forwarding case of the `switch`: broadcast to `currentRoom`, closure
untouched. -/
def forward (readyState : Socket → ReadyState) (sv : Server) (c : Closure)
    (message : Envelope) : Outcome (Server × Closure) :=
  let r := broadcastToRoom readyState sv c.currentRoom c.ws message
  ⟨(r.state, c), r.threw⟩

/-- The `try` block of the `message` callback.  State changes made before an
exception stay in place. -/
def tryBlock (readyState : Socket → ReadyState) (sv : Server) (c : Closure) :
    Frame → Outcome (Server × Closure)
  | Frame.unparseable => ⟨(sv, c), true⟩
  | Frame.jsonNull => ⟨(sv, c), true⟩
  | Frame.json data =>
    if data.type = JSValue.string "join" then
      let c1 : Closure := { c with currentRoom := data.room }
      let sv1 : Server :=
        if Rooms.has sv.rooms c1.currentRoom = false then
          { sv with rooms := Rooms.set sv.rooms c1.currentRoom [] }
        else sv
      match Rooms.get sv1.rooms c1.currentRoom with
      | none => ⟨(sv1, c1), true⟩
      | some s =>
        let sv2 : Server :=
          { sv1 with rooms := Rooms.set sv1.rooms c1.currentRoom (JSSet.add s c1.ws) }
        let sv3 := sv2.send c1.ws (joinedEnvelope c1.currentRoom c1.clientId)
        ⟨(sv3, c1), c1.currentRoom.toStringThrows⟩
    else if data.type = JSValue.string "offer" then
      forward readyState sv c
        [("type", JSValue.string "offer"), ("sdp", data.sdp), ("from", JSValue.string c.clientId)]
    else if data.type = JSValue.string "answer" then
      forward readyState sv c
        [("type", JSValue.string "answer"), ("sdp", data.sdp), ("from", JSValue.string c.clientId)]
    else if data.type = JSValue.string "call-accepted" then
      forward readyState sv c
        [("type", JSValue.string "call-accepted"), ("from", JSValue.string c.clientId)]
    else if data.type = JSValue.string "call-ended" then
      forward readyState sv c
        [("type", JSValue.string "call-ended"), ("from", JSValue.string c.clientId)]
    else if data.type = JSValue.string "reject" then
      forward readyState sv c
        [("type", JSValue.string "call-rejected"), ("from", JSValue.string c.clientId)]
    else if data.type = JSValue.string "ice-candidate" then
      forward readyState sv c
        [("type", JSValue.string "ice-candidate"), ("candidate", data.candidate),
          ("from", JSValue.string c.clientId)]
    else if data.type = JSValue.string "leave" then
      let r := leaveRoom sv c.ws c.currentRoom
      if r.threw then ⟨(r.state, c), true⟩
      else ⟨(r.state, c), c.currentRoom.toStringThrows⟩
    else ⟨(sv, c), false⟩

/-- `ws.on('message', ...)`: the `try` block, then the `catch` block when it
threw. -/
def onMessage (readyState : Socket → ReadyState) (sv : Server) (c : Closure)
    (frame : Frame) : Server × Closure :=
  let r := tryBlock readyState sv c frame
  if r.threw then (r.state.1.send c.ws errorEnvelope, r.state.2) else r.state

/-- `ws.on('close', ...)`.  An exception here would not be caught. -/
def onClose (sv : Server) (c : Closure) : Outcome Server :=
  if c.currentRoom.truthy then leaveRoom sv c.ws c.currentRoom else ⟨sv, false⟩

/-! ## The whole server -/

/-- State of the process: the server state and the `currentRoom` variable of
every connection. -/
structure World where
  server : Server
  currentRoom : Socket → JSValue

/-- What the event loop delivers: a frame on a connection (with the ready states
at that moment) or the close of a connection. -/
inductive Event where
  | message (readyState : Socket → ReadyState) (ws : Socket) (frame : Frame)
  | close (ws : Socket)

/-- State at start-up: `rooms` empty; `currentRoom` is `null` in every closure
when the connection is accepted. -/
def World.init : World :=
  ⟨⟨[], []⟩, fun _ => JSValue.null⟩

/-- The closure of connection `ws` in world `w`. -/
def World.closure (clientId : Socket → String) (w : World) (ws : Socket) : Closure :=
  ⟨ws, clientId ws, w.currentRoom ws⟩

/-- One event. -/
def step (clientId : Socket → String) (w : World) : Event → World
  | Event.message readyState ws frame =>
    let r := onMessage readyState w.server (w.closure clientId ws) frame
    ⟨r.1, Function.update w.currentRoom ws r.2.currentRoom⟩
  | Event.close ws =>
    ⟨(onClose w.server (w.closure clientId ws)).state, w.currentRoom⟩

/-- A sequence of events, in order. -/
def run (clientId : Socket → String) (w : World) (events : List Event) : World :=
  events.foldl (step clientId) w

/-- Frame `{"type":"join","room":room}`. -/
def joinFrame (room : JSValue) : Frame :=
  Frame.json ⟨JSValue.string "join", room, JSValue.undefined, JSValue.undefined⟩

/-- Frame `{"type":type}`. -/
def bareFrame (type : String) : Frame :=
  Frame.json ⟨JSValue.string type, JSValue.undefined, JSValue.undefined, JSValue.undefined⟩

/-- Every socket Open. -/
def allOpen : Socket → ReadyState :=
  fun _ => ReadyState.OPEN

/-! ## Definitions used in the statements and proofs -/

/-- The members of a room that a broadcast reaches: not the sender, and Open. -/
def recipients (readyState : Socket → ReadyState) (clients : JSSet) (sender : Socket) :
    List Socket :=
  clients.filter (fun d => decide (d ≠ sender ∧ readyState d = ReadyState.OPEN))

/-- The registry after `leaveRoom`, written in one piece. -/
def Rooms.leave (rooms : Rooms) (ws : Socket) (room : JSValue) : Rooms :=
  match Rooms.get rooms room with
  | none => rooms
  | some s =>
    if JSSet.delete s ws = [] then Rooms.delete (Rooms.set rooms room (JSSet.delete s ws)) room
    else Rooms.set rooms room (JSSet.delete s ws)

/-- The registry after the `join` case, written in one piece. -/
def Rooms.join (rooms : Rooms) (ws : Socket) (room : JSValue) : Rooms :=
  Rooms.set rooms room (JSSet.add (Rooms.members rooms room) ws)

/-- The six inbound types that are forwarded. -/
def forwardable : List String :=
  ["offer", "answer", "ice-candidate", "call-accepted", "call-ended", "reject"]

/-- The envelope the claim about forwarding describes: the inbound type (with
`reject` relabelled `call-rejected`), `sdp` for offer and answer, `candidate` for
ice-candidate, and `from`. -/
def forwardedEnvelope (type : String) (data : Data) (clientId : String) : Envelope :=
  [("type", JSValue.string (if type = "reject" then "call-rejected" else type))]
    ++ (if type = "offer" ∨ type = "answer" then [("sdp", data.sdp)] else [])
    ++ (if type = "ice-candidate" then [("candidate", data.candidate)] else [])
    ++ [("from", JSValue.string clientId)]

/-- Every member list of the registry is duplicate-free, as a `Set` is. -/
def Rooms.SetsNodup (rooms : Rooms) : Prop :=
  ∀ e ∈ rooms, e.2.Nodup

/-- Socket 3 is closed, the others are Open. -/
def threeClosed : Socket → ReadyState :=
  fun d => if d = 3 then ReadyState.CLOSED else ReadyState.OPEN

/-- Frame `{"type":"offer","sdp":"abc"}`. -/
def offerAbc : Frame :=
  Frame.json ⟨JSValue.string "offer", JSValue.undefined, JSValue.string "abc", JSValue.undefined⟩

/-- The value of `room` in the frame `{"type":"join","room":{"toString":0}}`: an
object whose own `toString` is a number, so that interpolating it in a template
literal throws a `TypeError`. -/
def unprintableRoom : JSValue :=
  JSValue.object 0 [("toString", JSValue.number 0)]

/-- Every entry of the registry holds at least one socket. -/
def Rooms.NoEmptyRoom (rooms : Rooms) : Prop :=
  ∀ e ∈ rooms, e.2 ≠ []

/-- The room the claim expects connection `c` to be in after an event, `cur` being
the one expected before it: the room of a join by `c`, none after a leave or a
close by `c`, unchanged otherwise. -/
def expectedRoom (c : Socket) (cur : Option JSValue) : Event → Option JSValue
  | Event.message _ ws frame =>
    if ws = c then
      match frame with
      | Frame.json data =>
        if data.type = JSValue.string "join" then some data.room
        else if data.type = JSValue.string "leave" then none
        else cur
      | _ => cur
    else cur
  | Event.close ws => if ws = c then none else cur

/-- Connection `c` joins one room at a time, seen at one event in world `w`: when
it sends `join` it is a member of no room other than the one it names, and when it
closes it is a member of no room whose name is falsy. -/
def orderlyAt (c : Socket) (w : World) : Event → Prop
  | Event.message _ ws frame =>
    match frame with
    | Frame.json data =>
      ws = c → data.type = JSValue.string "join" →
        ∀ r, c ∈ Rooms.members w.server.rooms r → r = data.room
    | _ => True
  | Event.close ws =>
    ws = c → ∀ r, c ∈ Rooms.members w.server.rooms r → r.truthy = true

/-- The condition `orderlyAt` at every event of a run that starts in `w`. -/
def orderly (clientId : Socket → String) (c : Socket) : World → List Event → Prop
  | _, [] => True
  | w, e :: rest => orderlyAt c w e ∧ orderly clientId c (step clientId w e) rest

/-- Connection `c` is a member of exactly the room `cur` (of none when `cur` is
`none`), and `cur` is then its `currentRoom`. -/
def InRoom (c : Socket) (w : World) (cur : Option JSValue) : Prop :=
  (∀ r, c ∈ Rooms.members w.server.rooms r ↔ cur = some r) ∧
  (∀ r, cur = some r → w.currentRoom c = r)

/-- Identifiers used in the examples: `"x"` for socket 1, `"y"` for the others. -/
def xy : Socket → String :=
  fun d => if d = 1 then "x" else "y"

/-- Socket 1 joins `"r1"` and, without leaving, joins `"r2"`. -/
def joinTwice : List Event :=
  [Event.message allOpen 1 (joinFrame (JSValue.string "r1")),
   Event.message allOpen 1 (joinFrame (JSValue.string "r2"))]

/-- Socket 1 joins `"r1"`, socket 2 joins `"r1"`, socket 1 leaves, then joins `"r2"`. -/
def leaveThenJoin : List Event :=
  [Event.message allOpen 1 (joinFrame (JSValue.string "r1")),
   Event.message allOpen 2 (joinFrame (JSValue.string "r1")),
   Event.message allOpen 1 (bareFrame "leave"),
   Event.message allOpen 1 (joinFrame (JSValue.string "r2"))]

/-- Socket 1 joins the room named by the empty string, then its connection
closes. -/
def joinEmptyThenClose : List Event :=
  [Event.message allOpen 1 (joinFrame (JSValue.string "")), Event.close 1]

/-- X (socket 1) and Y (socket 2) join `"r1"`, X sends `leave`, then X sends an offer
with sdp `"abc"`. -/
def leaveThenOffer : List Event :=
  [Event.message allOpen 1 (joinFrame (JSValue.string "r1")),
   Event.message allOpen 2 (joinFrame (JSValue.string "r1")),
   Event.message allOpen 1 (bareFrame "leave"),
   Event.message allOpen 1 offerAbc]

/-- Y (socket 2) joins with `"room": null`; X (socket 1), which never joined, sends an
offer. -/
def nullRoomThenOffer : List Event :=
  [Event.message allOpen 2 (joinFrame JSValue.null), Event.message allOpen 1 offerAbc]

/-- Frame `{"type":"answer","sdp":1e999}`: the numeral overflows, so the parsed
`sdp` is `Infinity`. -/
def answerOverflow : Frame :=
  Frame.json ⟨JSValue.string "answer", JSValue.undefined, JSValue.infinity false,
    JSValue.undefined⟩

/-! ## Facts about `Map` and `Set` -/

theorem JSSet.mem_add (s : JSSet) (ws x : Socket) :
    x ∈ JSSet.add s ws ↔ x ∈ s ∨ x = ws := by
  unfold JSSet.add
  split
  · constructor
    · intro h; exact Or.inl h
    · rintro (h | h)
      · exact h
      · subst h; assumption
  · simp

theorem JSSet.add_ne_nil (s : JSSet) (ws : Socket) : JSSet.add s ws ≠ [] := by
  intro h
  have : ws ∈ JSSet.add s ws := (JSSet.mem_add s ws ws).2 (Or.inr rfl)
  rw [h] at this
  simp at this

theorem JSSet.mem_delete (s : JSSet) (ws x : Socket) :
    x ∈ JSSet.delete s ws ↔ x ∈ s ∧ x ≠ ws := by
  simp [JSSet.delete]

theorem JSSet.delete_delete (s : JSSet) (ws : Socket) :
    JSSet.delete (JSSet.delete s ws) ws = JSSet.delete s ws := by
  simp [JSSet.delete]

theorem JSSet.add_nodup (s : JSSet) (ws : Socket) (h : s.Nodup) : (JSSet.add s ws).Nodup := by
  unfold JSSet.add
  split
  · exact h
  · rename_i hn
    exact List.Nodup.append h (List.nodup_singleton ws) (by simpa using hn)

theorem JSSet.delete_nodup (s : JSSet) (ws : Socket) (h : s.Nodup) :
    (JSSet.delete s ws).Nodup :=
  List.Nodup.filter _ h

theorem Rooms.has_eq_isSome (rooms : Rooms) (key : JSValue) :
    Rooms.has rooms key = (Rooms.get rooms key).isSome := by
  induction rooms with
  | nil => rfl
  | cons e rest ih =>
    obtain ⟨k, v⟩ := e
    by_cases h : k = key <;> simp [Rooms.has, Rooms.get, h, ih]

theorem Rooms.get_set (rooms : Rooms) (key : JSValue) (value : JSSet) (key' : JSValue) :
    Rooms.get (Rooms.set rooms key value) key'
      = if key' = key then some value else Rooms.get rooms key' := by
  induction rooms with
  | nil =>
    by_cases h : key' = key
    · simp [Rooms.set, Rooms.get, h]
    · have h' : ¬ key = key' := fun e => h e.symm
      simp [Rooms.set, Rooms.get, h, h']
  | cons e rest ih =>
    obtain ⟨k, v⟩ := e
    by_cases hk : k = key
    · subst hk
      by_cases h : key' = k
      · subst h; simp [Rooms.set, Rooms.get]
      · have h' : ¬ k = key' := fun e => h e.symm
        simp [Rooms.set, Rooms.get, h, h']
    · by_cases h : key' = key
      · subst h
        simp [Rooms.set, Rooms.get, hk, ih]
      · by_cases hk' : k = key'
        · simp [Rooms.set, Rooms.get, hk, hk', h]
        · simp [Rooms.set, Rooms.get, hk, hk', h, ih]

theorem Rooms.get_delete (rooms : Rooms) (key key' : JSValue) :
    Rooms.get (Rooms.delete rooms key) key'
      = if key' = key then none else Rooms.get rooms key' := by
  induction rooms with
  | nil => simp [Rooms.delete, Rooms.get]
  | cons e rest ih =>
    obtain ⟨k, v⟩ := e
    have ih' : Rooms.get (List.filter (fun e => !decide (e.1 = key)) rest) key'
        = if key' = key then none else Rooms.get rest key' := by
      simpa [Rooms.delete] using ih
    by_cases hk : k = key
    · subst hk
      by_cases h : key' = k
      · subst h; simp [Rooms.delete, Rooms.get, ih']
      · have h' : ¬ k = key' := fun e => h e.symm
        simp [Rooms.delete, Rooms.get, h, h', ih']
    · by_cases h : key' = key
      · subst h
        simp [Rooms.delete, Rooms.get, hk, ih']
      · by_cases hk' : k = key'
        · simp [Rooms.delete, Rooms.get, hk, hk', h]
        · simp [Rooms.delete, Rooms.get, hk, hk', h, ih']

theorem Rooms.mem_of_get (rooms : Rooms) (key : JSValue) (s : JSSet)
    (h : Rooms.get rooms key = some s) : (key, s) ∈ rooms := by
  induction rooms with
  | nil => simp [Rooms.get] at h
  | cons e rest ih =>
    obtain ⟨k, v⟩ := e
    by_cases hk : k = key
    · subst hk
      simp [Rooms.get] at h
      subst h
      exact List.mem_cons_self _ _
    · simp [Rooms.get, hk] at h
      exact List.mem_cons_of_mem _ (ih h)

theorem Rooms.mem_set (rooms : Rooms) (key : JSValue) (value : JSSet) (e : JSValue × JSSet)
    (h : e ∈ Rooms.set rooms key value) : e ∈ rooms ∨ e = (key, value) := by
  induction rooms with
  | nil =>
    simp [Rooms.set] at h
    exact Or.inr h
  | cons e' rest ih =>
    obtain ⟨k, v⟩ := e'
    by_cases hk : k = key
    · subst hk
      simp [Rooms.set] at h
      rcases h with h | h
      · exact Or.inr h
      · exact Or.inl (List.mem_cons_of_mem _ h)
    · simp [Rooms.set, hk] at h
      rcases h with h | h
      · exact Or.inl (h ▸ List.mem_cons_self _ _)
      · rcases ih h with h' | h'
        · exact Or.inl (List.mem_cons_of_mem _ h')
        · exact Or.inr h'

theorem Rooms.mem_removed (rooms : Rooms) (key : JSValue) (e : JSValue × JSSet)
    (h : e ∈ Rooms.delete rooms key) : e ∈ rooms ∧ e.1 ≠ key := by
  simpa [Rooms.delete] using h

theorem Rooms.set_set (rooms : Rooms) (key : JSValue) (v v' : JSSet) :
    Rooms.set (Rooms.set rooms key v) key v' = Rooms.set rooms key v' := by
  induction rooms with
  | nil => simp [Rooms.set]
  | cons e rest ih =>
    obtain ⟨k, w⟩ := e
    by_cases hk : k = key
    · simp [Rooms.set, hk]
    · simp [Rooms.set, hk, ih]

theorem Rooms.members_set (rooms : Rooms) (key : JSValue) (value : JSSet) (key' : JSValue) :
    Rooms.members (Rooms.set rooms key value) key'
      = if key' = key then value else Rooms.members rooms key' := by
  unfold Rooms.members
  rw [Rooms.get_set]
  split <;> rfl

/-! ## Facts about `JSON.stringify` -/

theorem JSValue.stringifyProps_append (ps qs : List (String × JSValue)) :
    JSValue.stringifyProps (ps ++ qs)
      = JSValue.stringifyProps ps ++ JSValue.stringifyProps qs := by
  induction ps with
  | nil => simp [JSValue.stringifyProps]
  | cons p rest ih =>
    obtain ⟨k, x⟩ := p
    cases hx : JSValue.stringify x <;> simp [JSValue.stringifyProps, hx, ih]

theorem JSValue.stringifyProps_single (k : String) (x : JSValue) :
    JSValue.stringifyProps [(k, x)]
      = match JSValue.stringify x with
        | none => []
        | some w => [(k, w)] := by
  cases hx : JSValue.stringify x <;> simp [JSValue.stringifyProps, hx]

mutual
theorem JSValue.stringify_lossless :
    ∀ (v : JSValue), JSValue.lossless v = true → JSValue.stringify v = some v
  | JSValue.undefined, h => by simp [JSValue.lossless] at h
  | JSValue.null, _ => by simp [JSValue.stringify]
  | JSValue.boolean _, _ => by simp [JSValue.stringify]
  | JSValue.number _, _ => by simp [JSValue.stringify]
  | JSValue.infinity _, h => by simp [JSValue.lossless] at h
  | JSValue.string _, _ => by simp [JSValue.stringify]
  | JSValue.array _ items, h => by
    have hi : JSValue.losslessItems items = true := by simpa [JSValue.lossless] using h
    simp [JSValue.stringify, JSValue.stringifyItems_lossless items hi]
  | JSValue.object _ props, h => by
    have hp : JSValue.losslessProps props = true := by simpa [JSValue.lossless] using h
    simp [JSValue.stringify, JSValue.stringifyProps_lossless props hp]
theorem JSValue.stringifyItems_lossless :
    ∀ (xs : List JSValue), JSValue.losslessItems xs = true → JSValue.stringifyItems xs = xs
  | [], _ => by simp [JSValue.stringifyItems]
  | x :: xs, h => by
    have h' : JSValue.lossless x = true ∧ JSValue.losslessItems xs = true := by
      simpa [JSValue.losslessItems] using h
    simp [JSValue.stringifyItems, JSValue.stringify_lossless x h'.1,
      JSValue.stringifyItems_lossless xs h'.2]
theorem JSValue.stringifyProps_lossless :
    ∀ (ps : List (String × JSValue)), JSValue.losslessProps ps = true →
      JSValue.stringifyProps ps = ps
  | [], _ => by simp [JSValue.stringifyProps]
  | (k, x) :: ps, h => by
    have h' : JSValue.lossless x = true ∧ JSValue.losslessProps ps = true := by
      simpa [JSValue.losslessProps] using h
    simp [JSValue.stringifyProps, JSValue.stringify_lossless x h'.1,
      JSValue.stringifyProps_lossless ps h'.2]
end

theorem stringifyProps_errorEnvelope : JSValue.stringifyProps errorEnvelope = errorEnvelope := by
  simp [errorEnvelope, JSValue.stringifyProps, JSValue.stringify]

/-! ## What the helpers compute -/

theorem forEach_send (readyState : Socket → ReadyState) (sender : Socket) (message : Envelope)
    (clients : JSSet) (sv : Server) :
    clients.foldl
        (fun acc client =>
          if client ≠ sender ∧ readyState client = ReadyState.OPEN then acc.send client message
          else acc)
        sv
      = ⟨sv.rooms, sv.sent ++
          (recipients readyState clients sender).map
            (fun d => (d, JSValue.stringifyProps message))⟩ := by
  induction clients generalizing sv with
  | nil => simp [recipients]
  | cons d rest ih =>
    rw [List.foldl_cons, ih]
    by_cases h : d ≠ sender ∧ readyState d = ReadyState.OPEN
    · simp [recipients, h, Server.send]
    · simp [recipients, h]

theorem broadcastToRoom_eq (readyState : Socket → ReadyState) (sv : Server) (room : JSValue)
    (sender : Socket) (message : Envelope) :
    broadcastToRoom readyState sv room sender message
      = ⟨⟨sv.rooms, sv.sent ++
          (recipients readyState (Rooms.members sv.rooms room) sender).map
            (fun d => (d, JSValue.stringifyProps message))⟩, false⟩ := by
  unfold broadcastToRoom Rooms.members
  rw [Rooms.has_eq_isSome]
  cases hg : Rooms.get sv.rooms room with
  | none => simp [recipients]
  | some clients => simp [forEach_send]

theorem leaveRoom_eq (sv : Server) (ws : Socket) (room : JSValue) :
    leaveRoom sv ws room = ⟨⟨Rooms.leave sv.rooms ws room, sv.sent⟩, false⟩ := by
  unfold leaveRoom Rooms.leave
  rw [Rooms.has_eq_isSome]
  cases hg : Rooms.get sv.rooms room with
  | none => simp
  | some s =>
    simp only [Option.isSome_some, if_true, Rooms.get_set, JSSet.size, List.length_eq_zero]
    split <;> rfl

theorem Rooms.get_leave (rooms : Rooms) (ws : Socket) (room key : JSValue) :
    Rooms.get (Rooms.leave rooms ws room) key
      = if key = room then
          (match Rooms.get rooms room with
           | none => none
           | some s => if JSSet.delete s ws = [] then none else some (JSSet.delete s ws))
        else Rooms.get rooms key := by
  unfold Rooms.leave
  cases hg : Rooms.get rooms room with
  | none =>
    by_cases h : key = room
    · subst h; simp [hg]
    · simp [h]
  | some s =>
    by_cases he : JSSet.delete s ws = []
    · by_cases h : key = room
      · simp [he, h, Rooms.get_delete]
      · simp [he, h, Rooms.get_delete, Rooms.get_set]
    · by_cases h : key = room
      · simp [he, h, Rooms.get_set]
      · simp [he, h, Rooms.get_set]

theorem Rooms.members_leave (rooms : Rooms) (ws : Socket) (room key : JSValue) :
    Rooms.members (Rooms.leave rooms ws room) key
      = if key = room then JSSet.delete (Rooms.members rooms room) ws
        else Rooms.members rooms key := by
  unfold Rooms.members
  rw [Rooms.get_leave]
  by_cases h : key = room
  · simp only [h, if_true]
    cases hg : Rooms.get rooms room with
    | none => simp [JSSet.delete]
    | some s =>
      by_cases he : JSSet.delete s ws = []
      · simp [he]
      · simp [he]
  · simp [h]

theorem tryBlock_join (readyState : Socket → ReadyState) (sv : Server) (c : Closure)
    (data : Data) (h : data.type = JSValue.string "join") :
    tryBlock readyState sv c (Frame.json data)
      = ⟨(⟨Rooms.join sv.rooms c.ws data.room,
            sv.sent ++ [(c.ws, JSValue.stringifyProps (joinedEnvelope data.room c.clientId))]⟩,
          { c with currentRoom := data.room }), data.room.toStringThrows⟩ := by
  unfold tryBlock Rooms.join Rooms.members
  simp only [h, if_true]
  rw [Rooms.has_eq_isSome]
  cases hg : Rooms.get sv.rooms data.room with
  | none => simp [Rooms.get_set, Rooms.set_set, Server.send]
  | some s => simp [hg, Server.send]

theorem onMessage_join (readyState : Socket → ReadyState) (sv : Server) (c : Closure)
    (data : Data) (h : data.type = JSValue.string "join") :
    onMessage readyState sv c (Frame.json data)
      = (⟨Rooms.join sv.rooms c.ws data.room,
          sv.sent ++ (c.ws, JSValue.stringifyProps (joinedEnvelope data.room c.clientId)) ::
            (if data.room.toStringThrows then [(c.ws, errorEnvelope)] else [])⟩,
         { c with currentRoom := data.room }) := by
  unfold onMessage
  rw [tryBlock_join readyState sv c data h]
  cases ht : data.room.toStringThrows <;> simp [Server.send, stringifyProps_errorEnvelope]

theorem onMessage_leave (readyState : Socket → ReadyState) (sv : Server) (c : Closure)
    (data : Data) (h : data.type = JSValue.string "leave") :
    onMessage readyState sv c (Frame.json data)
      = (⟨Rooms.leave sv.rooms c.ws c.currentRoom,
          sv.sent ++ (if c.currentRoom.toStringThrows then [(c.ws, errorEnvelope)] else [])⟩,
         c) := by
  unfold onMessage tryBlock
  simp only [h, leaveRoom_eq]
  cases ht : c.currentRoom.toStringThrows <;> simp [Server.send, stringifyProps_errorEnvelope]

theorem onMessage_forward (readyState : Socket → ReadyState) (sv : Server) (c : Closure)
    (data : Data) (type : String) (ht : type ∈ forwardable)
    (h : data.type = JSValue.string type) :
    onMessage readyState sv c (Frame.json data)
      = (⟨sv.rooms, sv.sent ++
          (recipients readyState (Rooms.members sv.rooms c.currentRoom) c.ws).map
            (fun d => (d, JSValue.stringifyProps (forwardedEnvelope type data c.clientId)))⟩,
         c) := by
  simp only [forwardable, List.mem_cons, List.mem_singleton, List.not_mem_nil, or_false] at ht
  rcases ht with rfl | rfl | rfl | rfl | rfl | rfl <;>
    simp [onMessage, tryBlock, h, forward, broadcastToRoom_eq, forwardedEnvelope]

theorem onMessage_other (readyState : Socket → ReadyState) (sv : Server) (c : Closure)
    (data : Data) (hj : data.type ≠ JSValue.string "join")
    (hl : data.type ≠ JSValue.string "leave")
    (hf : ∀ type ∈ forwardable, data.type ≠ JSValue.string type) :
    onMessage readyState sv c (Frame.json data) = (sv, c) := by
  have h1 := hf "offer" (by simp [forwardable])
  have h2 := hf "answer" (by simp [forwardable])
  have h3 := hf "ice-candidate" (by simp [forwardable])
  have h4 := hf "call-accepted" (by simp [forwardable])
  have h5 := hf "call-ended" (by simp [forwardable])
  have h6 := hf "reject" (by simp [forwardable])
  simp [onMessage, tryBlock, hj, hl, h1, h2, h3, h4, h5, h6]

/-- How a `message` callback can change the registry and the closure: a join, a
leave, or nothing. -/
theorem onMessage_rooms (readyState : Socket → ReadyState) (sv : Server) (c : Closure)
    (frame : Frame) :
    (∃ data, frame = Frame.json data ∧ data.type = JSValue.string "join" ∧
        (onMessage readyState sv c frame).1.rooms = Rooms.join sv.rooms c.ws data.room ∧
        (onMessage readyState sv c frame).2 = { c with currentRoom := data.room }) ∨
    (∃ data, frame = Frame.json data ∧ data.type = JSValue.string "leave" ∧
        (onMessage readyState sv c frame).1.rooms = Rooms.leave sv.rooms c.ws c.currentRoom ∧
        (onMessage readyState sv c frame).2 = c) ∨
    ((∀ data, frame = Frame.json data →
          data.type ≠ JSValue.string "join" ∧ data.type ≠ JSValue.string "leave") ∧
        (onMessage readyState sv c frame).1.rooms = sv.rooms ∧
        (onMessage readyState sv c frame).2 = c) := by
  cases frame with
  | unparseable =>
    refine Or.inr (Or.inr ⟨fun _ h => Frame.noConfusion h, ?_, ?_⟩) <;>
      simp [onMessage, tryBlock, Server.send]
  | jsonNull =>
    refine Or.inr (Or.inr ⟨fun _ h => Frame.noConfusion h, ?_, ?_⟩) <;>
      simp [onMessage, tryBlock, Server.send]
  | json data =>
    by_cases hj : data.type = JSValue.string "join"
    · refine Or.inl ⟨data, rfl, hj, ?_, ?_⟩ <;> rw [onMessage_join readyState sv c data hj]
    · by_cases hl : data.type = JSValue.string "leave"
      · refine Or.inr (Or.inl ⟨data, rfl, hl, ?_, ?_⟩) <;>
          rw [onMessage_leave readyState sv c data hl]
      · have hd : ∀ d, Frame.json data = Frame.json d →
            d.type ≠ JSValue.string "join" ∧ d.type ≠ JSValue.string "leave" := by
          intro d hd
          cases hd
          exact ⟨hj, hl⟩
        by_cases hf : ∃ type ∈ forwardable, data.type = JSValue.string type
        · obtain ⟨type, ht, h⟩ := hf
          refine Or.inr (Or.inr ⟨hd, ?_, ?_⟩) <;>
            rw [onMessage_forward readyState sv c data type ht h]
        · have hf' : ∀ type ∈ forwardable, data.type ≠ JSValue.string type :=
            fun type ht h => hf ⟨type, ht, h⟩
          refine Or.inr (Or.inr ⟨hd, ?_, ?_⟩) <;>
            rw [onMessage_other readyState sv c data hj hl hf']

theorem onClose_eq (sv : Server) (c : Closure) :
    onClose sv c
      = ⟨⟨if c.currentRoom.truthy then Rooms.leave sv.rooms c.ws c.currentRoom else sv.rooms,
          sv.sent⟩, false⟩ := by
  unfold onClose
  cases c.currentRoom.truthy <;> simp [leaveRoom_eq]

/-! ## Member lists stay duplicate-free -/

theorem Rooms.members_nodup (rooms : Rooms) (room : JSValue) (h : Rooms.SetsNodup rooms) :
    (Rooms.members rooms room).Nodup := by
  unfold Rooms.members
  cases hg : Rooms.get rooms room with
  | none => exact List.nodup_nil
  | some s => exact h _ (Rooms.mem_of_get _ _ _ hg)

theorem Rooms.setsNodup_join (rooms : Rooms) (ws : Socket) (room : JSValue)
    (h : Rooms.SetsNodup rooms) : Rooms.SetsNodup (Rooms.join rooms ws room) := by
  intro e he
  rcases Rooms.mem_set _ _ _ _ he with h1 | h1
  · exact h e h1
  · rw [h1]
    exact JSSet.add_nodup _ _ (Rooms.members_nodup rooms room h)

theorem Rooms.setsNodup_leave (rooms : Rooms) (ws : Socket) (room : JSValue)
    (h : Rooms.SetsNodup rooms) : Rooms.SetsNodup (Rooms.leave rooms ws room) := by
  unfold Rooms.leave
  cases hg : Rooms.get rooms room with
  | none => exact h
  | some s =>
    have hs : (JSSet.delete s ws).Nodup :=
      JSSet.delete_nodup _ _ (h _ (Rooms.mem_of_get _ _ _ hg))
    by_cases he : JSSet.delete s ws = []
    · simp only [he, if_true]
      intro e hm
      rcases Rooms.mem_set _ _ _ _ (Rooms.mem_removed _ _ _ hm).1 with h1 | h1
      · exact h e h1
      · rw [h1]
        exact List.nodup_nil
    · simp only [he, if_false]
      intro e hm
      rcases Rooms.mem_set _ _ _ _ hm with h1 | h1
      · exact h e h1
      · rw [h1]
        exact hs

theorem step_setsNodup (clientId : Socket → String) (w : World) (e : Event)
    (h : Rooms.SetsNodup w.server.rooms) :
    Rooms.SetsNodup (step clientId w e).server.rooms := by
  cases e with
  | message readyState ws frame =>
    simp only [step]
    rcases onMessage_rooms readyState w.server (w.closure clientId ws) frame with
      ⟨data, _, _, hr, _⟩ | ⟨data, _, _, hr, _⟩ | ⟨_, hr, _⟩
    · rw [hr]
      exact Rooms.setsNodup_join _ _ _ h
    · rw [hr]
      exact Rooms.setsNodup_leave _ _ _ h
    · rw [hr]
      exact h
  | close ws =>
    simp only [step, onClose_eq]
    split
    · exact Rooms.setsNodup_leave _ _ _ h
    · exact h

/-- In every state the server can reach from start-up, every member list is
duplicate-free. -/
theorem run_members_nodup (clientId : Socket → String) (events : List Event)
    (room : JSValue) :
    (Rooms.members (run clientId World.init events).server.rooms room).Nodup := by
  have key : ∀ (evs : List Event) (w : World), Rooms.SetsNodup w.server.rooms →
      Rooms.SetsNodup (run clientId w evs).server.rooms := by
    intro evs
    induction evs with
    | nil => intro w h; exact h
    | cons e rest ih => intro w h; exact ih _ (step_setsNodup clientId w e h)
  exact Rooms.members_nodup _ room
    (key events World.init (by intro e he; simp [World.init] at he))

/-! ## Broadcast -/

theorem recipients_count (readyState : Socket → ReadyState) (clients : JSSet)
    (sender d : Socket) (h : clients.Nodup) :
    (recipients readyState clients sender).count d
      = if d ∈ clients ∧ d ≠ sender ∧ readyState d = ReadyState.OPEN then 1 else 0 := by
  have hn : (recipients readyState clients sender).Nodup := List.Nodup.filter _ h
  rw [List.count_eq_of_nodup hn]
  simp [recipients]

/-- Claim C1: `broadcastToRoom(room, sender, message)` returns normally, leaves
`rooms` as it was and appends to the send log one entry per recipient, each
carrying `JSON.stringify(message)`: every member of the room that is not the
sender and whose `readyState` is OPEN gets exactly one, every other socket (the
sender, a member that is not Open, a socket outside the room) gets none, and
nothing is sent when the room is absent.  The member list is duplicate-free, as a
`Set` is. -/
theorem broadcastToRoom_delivery (readyState : Socket → ReadyState) (sv : Server)
    (room : JSValue) (sender : Socket) (message : Envelope)
    (hset : (Rooms.members sv.rooms room).Nodup) :
    (broadcastToRoom readyState sv room sender message).threw = false ∧
    (broadcastToRoom readyState sv room sender message).state.rooms = sv.rooms ∧
    ∃ delivered : List (Socket × Envelope),
      (broadcastToRoom readyState sv room sender message).state.sent = sv.sent ++ delivered ∧
      (∀ p ∈ delivered, p.2 = JSValue.stringifyProps message) ∧
      (∀ d : Socket, (delivered.map Prod.fst).count d
        = if d ∈ Rooms.members sv.rooms room ∧ d ≠ sender ∧ readyState d = ReadyState.OPEN
          then 1 else 0) ∧
      (Rooms.has sv.rooms room = false → delivered = []) := by
  rw [broadcastToRoom_eq]
  refine ⟨rfl, rfl, _, rfl, ?_, ?_, ?_⟩
  · intro p hp
    simp only [List.mem_map] at hp
    obtain ⟨d, _, rfl⟩ := hp
    rfl
  · intro d
    rw [List.map_map]
    have : (Prod.fst ∘ fun d => (d, JSValue.stringifyProps message))
        = (id : Socket → Socket) := rfl
    rw [this, List.map_id]
    exact recipients_count readyState _ sender d hset
  · intro h
    rw [Rooms.has_eq_isSome] at h
    have hg : Rooms.get sv.rooms room = none := by
      cases hg : Rooms.get sv.rooms room with
      | none => rfl
      | some s => simp [hg] at h
    simp [Rooms.members, hg, recipients]

/-- Witness for C1: room `"r1"` holds sockets 1, 2, 3 and 4, socket 3 is closed and
socket 1 broadcasts. -/
theorem broadcastToRoom_delivery_witness :
    (Rooms.members [(JSValue.string "r1", [1, 2, 3, 4])] (JSValue.string "r1")).Nodup ∧
    (broadcastToRoom threeClosed ⟨[(JSValue.string "r1", [1, 2, 3, 4])], []⟩
        (JSValue.string "r1") 1 errorEnvelope).state.sent
      = [(2, errorEnvelope), (4, errorEnvelope)] ∧
    ∃ delivered : List (Socket × Envelope),
      (broadcastToRoom threeClosed ⟨[(JSValue.string "r1", [1, 2, 3, 4])], []⟩
        (JSValue.string "r1") 1 errorEnvelope).state.sent = [] ++ delivered ∧
      (delivered.map Prod.fst).count 2
        = if 2 ∈ Rooms.members [(JSValue.string "r1", [1, 2, 3, 4])] (JSValue.string "r1") ∧
            2 ≠ 1 ∧ threeClosed 2 = ReadyState.OPEN then 1 else 0 :=
  ⟨by decide, by decide,
    (broadcastToRoom_delivery threeClosed ⟨[(JSValue.string "r1", [1, 2, 3, 4])], []⟩
      (JSValue.string "r1") 1 errorEnvelope (by decide)).2.2.elim
      (fun delivered h => ⟨delivered, h.1, h.2.2.1 2⟩)⟩

/-! ## Malformed frames -/

/-- Claim C4: for a frame that `JSON.parse` rejects, the `message` callback leaves
`rooms` and the closure (so `currentRoom`) as they were and appends exactly one
entry to the send log: the envelope with type `error` and message
`Invalid message format`, addressed to the sending socket. -/
theorem unparseable_frame_error (readyState : Socket → ReadyState) (sv : Server)
    (c : Closure) :
    (onMessage readyState sv c Frame.unparseable).1.rooms = sv.rooms ∧
    (onMessage readyState sv c Frame.unparseable).2 = c ∧
    (onMessage readyState sv c Frame.unparseable).1.sent
      = sv.sent ++ [(c.ws, [("type", JSValue.string "error"),
          ("message", JSValue.string "Invalid message format")])] := by
  simp [onMessage, tryBlock, Server.send, errorEnvelope, JSValue.stringifyProps,
    JSValue.stringify]

/-! ## Forwarding -/

theorem stringifyProps_forwardedEnvelope (type : String) (data : Data) (clientId : String) :
    JSValue.stringifyProps (forwardedEnvelope type data clientId)
      = [("type", JSValue.string (if type = "reject" then "call-rejected" else type))]
        ++ (if type = "offer" ∨ type = "answer" then JSValue.stringifyProps [("sdp", data.sdp)]
            else [])
        ++ (if type = "ice-candidate" then
              JSValue.stringifyProps [("candidate", data.candidate)]
            else [])
        ++ [("from", JSValue.string clientId)] := by
  unfold forwardedEnvelope
  rw [JSValue.stringifyProps_append, JSValue.stringifyProps_append,
    JSValue.stringifyProps_append]
  have h1 : ∀ (k s : String),
      JSValue.stringifyProps [(k, JSValue.string s)] = [(k, JSValue.string s)] := by
    intro k s
    simp [JSValue.stringifyProps, JSValue.stringify]
  rw [h1, h1]
  congr 2
  · congr 1
    split <;> simp [JSValue.stringifyProps]
  · split <;> simp [JSValue.stringifyProps]

/-- Counterexample to C5 as stated: X (socket 1) and Y (socket 2) are in `"r1"` and X
sends `{"type":"answer","sdp":1e999}`.  The inbound `sdp` is `Infinity`, which
`JSON.stringify` writes as `null`, so the envelope Y gets has `sdp` `null`, not the
inbound value. -/
theorem answer_overflow_sdp_delivered_null :
    (onMessage allOpen ⟨[(JSValue.string "r1", [1, 2])], []⟩ ⟨1, "x", JSValue.string "r1"⟩
        answerOverflow).1.sent
      = [(2, [("type", JSValue.string "answer"), ("sdp", JSValue.null),
              ("from", JSValue.string "x")])] ∧
    JSValue.infinity false ≠ JSValue.null := by
  decide

/-- Claim C5, amended: for an inbound envelope whose `type` is offer, answer,
ice-candidate, call-accepted, call-ended or reject, sent on a connection with
identifier `clientId`, the `message` callback leaves `rooms` and the closure as
they were and sends, to each Open member of `currentRoom` other than the sender,
the envelope made of `type` (the inbound type, `reject` becoming
`call-rejected`), then `sdp` for offer and answer, then `candidate` for
ice-candidate, then `from` with the sender identifier, and nothing else.  The
payload is the inbound one as `JSON.stringify` writes it: equal to the inbound
value when that holds no non-finite number, with each non-finite number written
as `null` otherwise (`null` itself for a non-finite number at top level), and
absent when the inbound envelope has none. -/
theorem forwarded_envelope_shape (readyState : Socket → ReadyState) (sv : Server)
    (c : Closure) (data : Data) (type : String)
    (ht : type ∈ ["offer", "answer", "ice-candidate", "call-accepted", "call-ended", "reject"])
    (h : data.type = JSValue.string type) :
    (onMessage readyState sv c (Frame.json data)).1.rooms = sv.rooms ∧
    (onMessage readyState sv c (Frame.json data)).2 = c ∧
    (onMessage readyState sv c (Frame.json data)).1.sent
      = sv.sent ++
        (recipients readyState (Rooms.members sv.rooms c.currentRoom) c.ws).map
          (fun d => (d,
            [("type", JSValue.string (if type = "reject" then "call-rejected" else type))]
              ++ (if type = "offer" ∨ type = "answer" then
                    JSValue.stringifyProps [("sdp", data.sdp)]
                  else [])
              ++ (if type = "ice-candidate" then
                    JSValue.stringifyProps [("candidate", data.candidate)]
                  else [])
              ++ [("from", JSValue.string c.clientId)])) ∧
    (data.sdp.lossless = true →
      JSValue.stringifyProps [("sdp", data.sdp)] = [("sdp", data.sdp)]) ∧
    (data.candidate.lossless = true →
      JSValue.stringifyProps [("candidate", data.candidate)]
        = [("candidate", data.candidate)]) ∧
    (∀ negative, data.sdp = JSValue.infinity negative →
      JSValue.stringifyProps [("sdp", data.sdp)] = [("sdp", JSValue.null)]) ∧
    (∀ negative, data.candidate = JSValue.infinity negative →
      JSValue.stringifyProps [("candidate", data.candidate)]
        = [("candidate", JSValue.null)]) ∧
    (data.sdp = JSValue.undefined → JSValue.stringifyProps [("sdp", data.sdp)] = []) ∧
    (data.candidate = JSValue.undefined →
      JSValue.stringifyProps [("candidate", data.candidate)] = []) := by
  rw [onMessage_forward readyState sv c data type ht h]
  refine ⟨rfl, rfl, ?_, ?_, ?_, ?_, ?_, ?_, ?_⟩
  · simp only [stringifyProps_forwardedEnvelope]
  · intro hl
    rw [JSValue.stringifyProps_single, JSValue.stringify_lossless _ hl]
  · intro hl
    rw [JSValue.stringifyProps_single, JSValue.stringify_lossless _ hl]
  · intro negative hv
    rw [hv]
    simp [JSValue.stringifyProps, JSValue.stringify]
  · intro negative hv
    rw [hv]
    simp [JSValue.stringifyProps, JSValue.stringify]
  · intro hv
    rw [hv]
    simp [JSValue.stringifyProps, JSValue.stringify]
  · intro hv
    rw [hv]
    simp [JSValue.stringifyProps, JSValue.stringify]

/-- Witness for C5 (scenario A): X (socket 1) and Y (socket 2) are in `"r1"`, X sends
an offer with sdp `"abc"`; Y gets the offer with `from` set to the identifier of
X, X gets nothing. -/
theorem forwarded_envelope_shape_witness :
    (onMessage allOpen ⟨[(JSValue.string "r1", [1, 2])], []⟩ ⟨1, "x", JSValue.string "r1"⟩
        offerAbc).1.sent
      = [(2, [("type", JSValue.string "offer"), ("sdp", JSValue.string "abc"),
              ("from", JSValue.string "x")])] := by
  have h := (forwarded_envelope_shape allOpen ⟨[(JSValue.string "r1", [1, 2])], []⟩
    ⟨1, "x", JSValue.string "r1"⟩
    ⟨JSValue.string "offer", JSValue.undefined, JSValue.string "abc", JSValue.undefined⟩
    "offer" (by decide) rfl).2.2.1
  rw [offerAbc, h]
  decide

/-! ## Join -/

theorem Rooms.get_join (rooms : Rooms) (ws : Socket) (room key : JSValue) :
    Rooms.get (Rooms.join rooms ws room) key
      = if key = room then some (JSSet.add (Rooms.members rooms room) ws)
        else Rooms.get rooms key := by
  unfold Rooms.join
  rw [Rooms.get_set]

theorem Rooms.members_join (rooms : Rooms) (ws : Socket) (room key : JSValue) :
    Rooms.members (Rooms.join rooms ws room) key
      = if key = room then JSSet.add (Rooms.members rooms room) ws
        else Rooms.members rooms key := by
  unfold Rooms.join
  rw [Rooms.members_set]

/-- What the `join` case does for every room value: the room becomes a key of
`rooms` with member set the previous one plus the socket, `currentRoom` is set to
it and the rest of the closure kept, the entry of every other room is left as it
was, and the send log gains `joined` (with the room as `JSON.stringify` writes it
and the identifier of the connection) for the socket itself, followed by `error`
for the same socket exactly when converting the room to a string throws. -/
theorem join_adds_member (readyState : Socket → ReadyState) (sv : Server) (c : Closure)
    (data : Data) (h : data.type = JSValue.string "join") :
    Rooms.has (onMessage readyState sv c (Frame.json data)).1.rooms data.room = true ∧
    Rooms.members (onMessage readyState sv c (Frame.json data)).1.rooms data.room
      = JSSet.add (Rooms.members sv.rooms data.room) c.ws ∧
    c.ws ∈ Rooms.members (onMessage readyState sv c (Frame.json data)).1.rooms data.room ∧
    (∀ other, other ≠ data.room →
      Rooms.get (onMessage readyState sv c (Frame.json data)).1.rooms other
        = Rooms.get sv.rooms other) ∧
    (onMessage readyState sv c (Frame.json data)).2 = ⟨c.ws, c.clientId, data.room⟩ ∧
    (onMessage readyState sv c (Frame.json data)).1.sent
      = sv.sent ++
        (c.ws, [("type", JSValue.string "joined")]
            ++ JSValue.stringifyProps [("room", data.room)]
            ++ [("clientId", JSValue.string c.clientId)]) ::
          (if data.room.toStringThrows then
            [(c.ws, [("type", JSValue.string "error"),
              ("message", JSValue.string "Invalid message format")])]
           else []) := by
  rw [onMessage_join readyState sv c data h]
  refine ⟨?_, ?_, ?_, ?_, rfl, ?_⟩
  · rw [Rooms.has_eq_isSome, Rooms.get_join]
    simp
  · rw [Rooms.members_join]
    simp
  · rw [Rooms.members_join]
    simp [JSSet.mem_add]
  · intro other ho
    rw [Rooms.get_join]
    simp [ho]
  · have hj : JSValue.stringifyProps (joinedEnvelope data.room c.clientId)
        = [("type", JSValue.string "joined")]
          ++ JSValue.stringifyProps [("room", data.room)]
          ++ [("clientId", JSValue.string c.clientId)] := by
      have e : joinedEnvelope data.room c.clientId
          = [("type", JSValue.string "joined")] ++ [("room", data.room)]
            ++ [("clientId", JSValue.string c.clientId)] := rfl
      rw [e, JSValue.stringifyProps_append, JSValue.stringifyProps_append]
      simp [JSValue.stringifyProps, JSValue.stringify]
    simp only [hj, errorEnvelope]

/-- Claim C6 at a concrete frame: on `{"type":"join","room":{"toString":0}}` the
socket is added to the room and sent `joined`, then the log line of the `join`
case throws while converting `currentRoom` to a string, and the `catch` block
sends a second envelope, `error`, to the same socket. -/
theorem join_unprintable_room_sends_two :
    (onMessage allOpen ⟨[], []⟩ ⟨1, "x", JSValue.null⟩ (joinFrame unprintableRoom)).1.rooms
      = [(unprintableRoom, [1])] ∧
    (onMessage allOpen ⟨[], []⟩ ⟨1, "x", JSValue.null⟩ (joinFrame unprintableRoom)).1.sent
      = [(1, [("type", JSValue.string "joined"), ("room", unprintableRoom),
              ("clientId", JSValue.string "x")]),
         (1, [("type", JSValue.string "error"),
              ("message", JSValue.string "Invalid message format")])] ∧
    (onMessage allOpen ⟨[], []⟩ ⟨1, "x", JSValue.null⟩
        (joinFrame (JSValue.string "r1"))).1.sent
      = [(1, [("type", JSValue.string "joined"), ("room", JSValue.string "r1"),
              ("clientId", JSValue.string "x")])] := by
  decide

/-! ## Disconnect -/

theorem Rooms.leave_leave (rooms : Rooms) (ws : Socket) (room : JSValue) :
    Rooms.leave (Rooms.leave rooms ws room) ws room = Rooms.leave rooms ws room := by
  cases hg : Rooms.get rooms room with
  | none =>
    have h1 : Rooms.leave rooms ws room = rooms := by simp [Rooms.leave, hg]
    rw [h1, h1]
  | some s =>
    by_cases he : JSSet.delete s ws = []
    · have h1 : Rooms.leave rooms ws room
          = Rooms.delete (Rooms.set rooms room (JSSet.delete s ws)) room := by
        simp [Rooms.leave, hg, he]
      have h2 : Rooms.get (Rooms.leave rooms ws room) room = none := by
        rw [h1, Rooms.get_delete]
        simp
      have h3 : Rooms.leave (Rooms.leave rooms ws room) ws room
          = Rooms.leave rooms ws room := by
        generalize Rooms.leave rooms ws room = m at h2
        simp [Rooms.leave, h2]
      exact h3
    · have h1 : Rooms.leave rooms ws room = Rooms.set rooms room (JSSet.delete s ws) := by
        simp [Rooms.leave, hg, he]
      have h2 : Rooms.get (Rooms.leave rooms ws room) room = some (JSSet.delete s ws) := by
        rw [h1, Rooms.get_set]
        simp
      have h3 : Rooms.leave (Rooms.leave rooms ws room) ws room
          = Rooms.set (Rooms.leave rooms ws room) room (JSSet.delete s ws) := by
        generalize Rooms.leave rooms ws room = m at h2
        simp [Rooms.leave, h2, JSSet.delete_delete, he]
      rw [h3, h1, Rooms.set_set]

/-- Claim C10: the `close` callback never throws, and running it a second time for
the same connection returns normally and leaves the whole server state (the
registry and the send log) as the first run left it. -/
theorem onClose_idempotent (sv : Server) (c : Closure) :
    (onClose sv c).threw = false ∧
    (onClose (onClose sv c).state c).threw = false ∧
    (onClose (onClose sv c).state c).state = (onClose sv c).state ∧
    (onClose (onClose sv c).state c).state.rooms = (onClose sv c).state.rooms := by
  have h : (onClose (onClose sv c).state c).state = (onClose sv c).state := by
    simp only [onClose_eq]
    cases c.currentRoom.truthy <;> simp [Rooms.leave_leave]
  refine ⟨?_, ?_, h, by rw [h]⟩
  · rw [onClose_eq]
  · rw [onClose_eq]

/-! ## No empty room is retained -/

theorem Rooms.noEmptyRoom_join (rooms : Rooms) (ws : Socket) (room : JSValue)
    (h : Rooms.NoEmptyRoom rooms) : Rooms.NoEmptyRoom (Rooms.join rooms ws room) := by
  intro e he
  rcases Rooms.mem_set _ _ _ _ he with h' | h'
  · exact h e h'
  · rw [h']
    exact JSSet.add_ne_nil _ _

theorem Rooms.noEmptyRoom_leave (rooms : Rooms) (ws : Socket) (room : JSValue)
    (h : Rooms.NoEmptyRoom rooms) : Rooms.NoEmptyRoom (Rooms.leave rooms ws room) := by
  unfold Rooms.leave
  cases hg : Rooms.get rooms room with
  | none => exact h
  | some s =>
    by_cases he : JSSet.delete s ws = []
    · simp only [he, if_true]
      intro e hm
      obtain ⟨hm1, hm2⟩ := Rooms.mem_removed _ _ _ hm
      rcases Rooms.mem_set _ _ _ _ hm1 with h' | h'
      · exact h e h'
      · rw [h'] at hm2
        exact absurd rfl hm2
    · simp only [he, if_false]
      intro e hm
      rcases Rooms.mem_set _ _ _ _ hm with h' | h'
      · exact h e h'
      · rw [h']
        exact he

theorem step_noEmptyRoom (clientId : Socket → String) (w : World) (e : Event)
    (h : Rooms.NoEmptyRoom w.server.rooms) :
    Rooms.NoEmptyRoom (step clientId w e).server.rooms := by
  cases e with
  | message readyState ws frame =>
    simp only [step]
    rcases onMessage_rooms readyState w.server (w.closure clientId ws) frame with
      ⟨data, _, _, hr, _⟩ | ⟨data, _, _, hr, _⟩ | ⟨_, hr, _⟩
    · rw [hr]
      exact Rooms.noEmptyRoom_join _ _ _ h
    · rw [hr]
      exact Rooms.noEmptyRoom_leave _ _ _ h
    · rw [hr]
      exact h
  | close ws =>
    simp only [step, onClose_eq]
    split
    · exact Rooms.noEmptyRoom_leave _ _ _ h
    · exact h

theorem run_noEmptyRoom (clientId : Socket → String) (events : List Event) (w : World)
    (h : Rooms.NoEmptyRoom w.server.rooms) :
    Rooms.NoEmptyRoom (run clientId w events).server.rooms := by
  induction events generalizing w with
  | nil => exact h
  | cons e rest ih => exact ih _ (step_noEmptyRoom clientId w e h)

/-- Claim C2: after any sequence of `message` events (join, leave, forwarded,
unknown, malformed) and `close` events on any connections, starting from the
empty registry, a value is a key of `rooms` if and only if its member list is
non-empty, and no entry of `rooms` holds an empty set. -/
theorem room_present_iff_nonempty (clientId : Socket → String) (events : List Event) :
    (∀ room, Rooms.has (run clientId World.init events).server.rooms room = true
      ↔ Rooms.members (run clientId World.init events).server.rooms room ≠ []) ∧
    (∀ e ∈ (run clientId World.init events).server.rooms, e.2 ≠ []) := by
  have hinv : Rooms.NoEmptyRoom (run clientId World.init events).server.rooms :=
    run_noEmptyRoom clientId events World.init (by intro e he; simp [World.init] at he)
  refine ⟨fun room => ?_, hinv⟩
  rw [Rooms.has_eq_isSome]
  unfold Rooms.members
  cases hg : Rooms.get (run clientId World.init events).server.rooms room with
  | none => simp
  | some s =>
    have := hinv _ (Rooms.mem_of_get _ _ _ hg)
    simpa using this

/-! ## Membership of one connection along a run -/

theorem Rooms.mem_members_join (rooms : Rooms) (ws : Socket) (room key : JSValue)
    (x : Socket) :
    x ∈ Rooms.members (Rooms.join rooms ws room) key
      ↔ x ∈ Rooms.members rooms key ∨ (x = ws ∧ key = room) := by
  rw [Rooms.members_join]
  by_cases h : key = room
  · subst h
    simp [JSSet.mem_add]
  · simp [h]

theorem Rooms.mem_members_leave (rooms : Rooms) (ws : Socket) (room key : JSValue)
    (x : Socket) :
    x ∈ Rooms.members (Rooms.leave rooms ws room) key
      ↔ x ∈ Rooms.members rooms key ∧ ¬ (x = ws ∧ key = room) := by
  rw [Rooms.members_leave]
  by_cases h : key = room
  · subst h
    simp [JSSet.mem_delete]
  · simp [h]

theorem step_inRoom (clientId : Socket → String) (c : Socket) (w : World)
    (cur : Option JSValue) (e : Event) (hinv : InRoom c w cur) (ho : orderlyAt c w e) :
    InRoom c (step clientId w e) (expectedRoom c cur e) := by
  obtain ⟨hmem, hcur⟩ := hinv
  cases e with
  | message readyState ws frame =>
    rcases onMessage_rooms readyState w.server (w.closure clientId ws) frame with
      ⟨data, hf, hj, hr, hc⟩ | ⟨data, hf, hl, hr, hc⟩ | ⟨hn, hr, hc⟩
    · -- join
      subst hf
      have hr' : (step clientId w (Event.message readyState ws (Frame.json data))).server.rooms
          = Rooms.join w.server.rooms ws data.room := hr
      have hc' : (step clientId w (Event.message readyState ws (Frame.json data))).currentRoom
          = Function.update w.currentRoom ws data.room := by
        show Function.update w.currentRoom ws
          (onMessage readyState w.server (w.closure clientId ws) (Frame.json data)).2.currentRoom
            = _
        rw [hc]
      simp only [orderlyAt] at ho
      by_cases hws : ws = c
      · subst hws
        have ho' := ho rfl hj
        have he : expectedRoom ws cur (Event.message readyState ws (Frame.json data))
            = some data.room := by
          simp [expectedRoom, hj]
        rw [he]
        constructor
        · intro r
          rw [hr', Rooms.mem_members_join]
          constructor
          · rintro (h | ⟨_, h⟩)
            · rw [ho' r h]
            · rw [h]
          · intro h
            simp only [Option.some.injEq] at h
            exact Or.inr ⟨rfl, h.symm⟩
        · intro r h
          simp only [Option.some.injEq] at h
          rw [hc', ← h]
          simp
      · have hws' : c ≠ ws := fun h => hws h.symm
        have he : expectedRoom c cur (Event.message readyState ws (Frame.json data)) = cur := by
          simp [expectedRoom, hws]
        rw [he]
        constructor
        · intro r
          rw [hr', Rooms.mem_members_join, ← hmem r]
          simp [hws']
        · intro r h
          rw [hc']
          simp [Function.update, hws', hcur r h]
    · -- leave
      subst hf
      have hr' : (step clientId w (Event.message readyState ws (Frame.json data))).server.rooms
          = Rooms.leave w.server.rooms ws (w.currentRoom ws) := hr
      have hc' : (step clientId w (Event.message readyState ws (Frame.json data))).currentRoom
          = Function.update w.currentRoom ws (w.currentRoom ws) := by
        show Function.update w.currentRoom ws
          (onMessage readyState w.server (w.closure clientId ws) (Frame.json data)).2.currentRoom
            = _
        rw [hc]
        rfl
      have hjn : data.type ≠ JSValue.string "join" := by
        rw [hl]
        decide
      by_cases hws : ws = c
      · subst hws
        have he : expectedRoom ws cur (Event.message readyState ws (Frame.json data))
            = none := by
          simp [expectedRoom, hjn, hl]
        rw [he]
        constructor
        · intro r
          rw [hr', Rooms.mem_members_leave]
          constructor
          · rintro ⟨h1, h2⟩
            exact absurd ⟨rfl, (hcur r ((hmem r).1 h1)).symm⟩ h2
          · intro h
            cases h
        · intro r h
          cases h
      · have hws' : c ≠ ws := fun h => hws h.symm
        have he : expectedRoom c cur (Event.message readyState ws (Frame.json data)) = cur := by
          simp [expectedRoom, hws]
        rw [he]
        constructor
        · intro r
          rw [hr', Rooms.mem_members_leave, ← hmem r]
          simp [hws']
        · intro r h
          rw [hc']
          simp [Function.update, hws', hcur r h]
    · -- neither join nor leave
      have hr' : (step clientId w (Event.message readyState ws frame)).server.rooms
          = w.server.rooms := hr
      have hc' : (step clientId w (Event.message readyState ws frame)).currentRoom
          = Function.update w.currentRoom ws (w.currentRoom ws) := by
        show Function.update w.currentRoom ws
          (onMessage readyState w.server (w.closure clientId ws) frame).2.currentRoom = _
        rw [hc]
        rfl
      have he : expectedRoom c cur (Event.message readyState ws frame) = cur := by
        cases frame with
        | unparseable => simp [expectedRoom]
        | jsonNull => simp [expectedRoom]
        | json data =>
          obtain ⟨h1, h2⟩ := hn data rfl
          simp [expectedRoom, h1, h2]
      rw [he]
      constructor
      · intro r
        rw [hr']
        exact hmem r
      · intro r h
        rw [hc']
        simp [hcur r h]
  | close ws =>
    have hr' : (step clientId w (Event.close ws)).server.rooms
        = if (w.currentRoom ws).truthy then Rooms.leave w.server.rooms ws (w.currentRoom ws)
          else w.server.rooms := by
      simp only [step, onClose_eq, World.closure]
    have hc' : (step clientId w (Event.close ws)).currentRoom = w.currentRoom := rfl
    simp only [orderlyAt] at ho
    by_cases hws : ws = c
    · subst hws
      have ho' := ho rfl
      have he : expectedRoom ws cur (Event.close ws) = none := by
        simp [expectedRoom]
      rw [he]
      constructor
      · intro r
        rw [hr']
        constructor
        · intro h
          exfalso
          by_cases ht : (w.currentRoom ws).truthy = true
          · rw [if_pos ht, Rooms.mem_members_leave] at h
            exact h.2 ⟨rfl, (hcur r ((hmem r).1 h.1)).symm⟩
          · rw [if_neg ht] at h
            have h1 := ho' r h
            rw [← hcur r ((hmem r).1 h)] at h1
            exact ht h1
        · intro h
          cases h
      · intro r h
        cases h
    · have hws' : c ≠ ws := fun h => hws h.symm
      have he : expectedRoom c cur (Event.close ws) = cur := by
        simp [expectedRoom, hws]
      rw [he]
      constructor
      · intro r
        rw [hr', ← hmem r]
        split
        · rw [Rooms.mem_members_leave]
          simp [hws']
        · rfl
      · intro r h
        rw [hc']
        exact hcur r h

theorem run_inRoom (clientId : Socket → String) (c : Socket) (events : List Event)
    (w : World) (cur : Option JSValue) (hinv : InRoom c w cur)
    (ho : orderly clientId c w events) :
    InRoom c (run clientId w events) (events.foldl (expectedRoom c) cur) := by
  induction events generalizing w cur with
  | nil => exact hinv
  | cons e rest ih =>
    exact ih _ _ (step_inRoom clientId c w cur e hinv ho.1) ho.2

/-- Counterexample to C3 as stated: after joining `"r1"` and then `"r2"` the socket
is a member of both rooms, and a `leave` that follows takes it out of `"r2"` only:
it is still a member of `"r1"`. -/
theorem second_join_keeps_first_room :
    1 ∈ Rooms.members (run xy World.init joinTwice).server.rooms (JSValue.string "r1") ∧
    1 ∈ Rooms.members (run xy World.init joinTwice).server.rooms (JSValue.string "r2") ∧
    JSValue.string "r1" ≠ JSValue.string "r2" ∧
    (run xy World.init joinTwice).currentRoom 1 = JSValue.string "r2" ∧
    1 ∈ Rooms.members
      (run xy World.init (joinTwice ++ [Event.message allOpen 1 (bareFrame "leave")])).server.rooms
      (JSValue.string "r1") := by
  decide

/-- Claim C3, amended: take any sequence of events (of any connections) from the
empty registry in which connection `c`, each time it sends `join`, is a member of
no room other than the one it names, and is a member of no falsy-named room when
it closes.  Then after the sequence `c` is a member of a room if and only if that
room is the one of its most recent join and it has sent no `leave` and was not
closed since; so it is in at most one room, and in none after a leave or a
disconnect. -/
theorem member_of_last_joined_room (clientId : Socket → String) (c : Socket)
    (events : List Event) (h : orderly clientId c World.init events) (r : JSValue) :
    c ∈ Rooms.members (run clientId World.init events).server.rooms r
      ↔ events.foldl (expectedRoom c) none = some r := by
  have hinit : InRoom c World.init none := by
    constructor
    · intro r'
      simp [World.init, Rooms.members, Rooms.get]
    · intro r' h'
      cases h'
  exact (run_inRoom clientId c events World.init none hinit h).1 r

theorem leaveThenJoin_orderly : orderly xy 1 World.init leaveThenJoin := by
  refine ⟨?_, ?_, ?_, ?_, trivial⟩
  · intro _ _ r hr
    simp [World.init, Rooms.members, Rooms.get] at hr
  · intro h
    exact absurd h (by decide)
  · intro _ h
    exact absurd h (by decide)
  · intro _ _ r hr
    have hw : (step xy (step xy (step xy World.init
        (Event.message allOpen 1 (joinFrame (JSValue.string "r1"))))
        (Event.message allOpen 2 (joinFrame (JSValue.string "r1"))))
        (Event.message allOpen 1 (bareFrame "leave"))).server.rooms
          = [(JSValue.string "r1", [2])] := by
      decide
    rw [hw] at hr
    by_cases hk : JSValue.string "r1" = r
    · simp [Rooms.members, Rooms.get, hk] at hr
    · simp [Rooms.members, Rooms.get, hk] at hr

/-- Witness for C3: in `leaveThenJoin` socket 1 ends as a member of `"r2"`, its most
recent join, and is no longer in `"r1"`, which it left. -/
theorem member_of_last_joined_room_witness :
    orderly xy 1 World.init leaveThenJoin ∧
    (run xy World.init leaveThenJoin).server.rooms
      = [(JSValue.string "r1", [2]), (JSValue.string "r2", [1])] ∧
    leaveThenJoin.foldl (expectedRoom 1) none = some (JSValue.string "r2") ∧
    (1 ∈ Rooms.members (run xy World.init leaveThenJoin).server.rooms (JSValue.string "r2")
      ↔ leaveThenJoin.foldl (expectedRoom 1) none = some (JSValue.string "r2")) :=
  ⟨leaveThenJoin_orderly, by decide, by decide,
    member_of_last_joined_room xy 1 leaveThenJoin leaveThenJoin_orderly (JSValue.string "r2")⟩

/-! ## Close for a room with a falsy name -/

/-- Where the `close` callback does what `leave` does: when `currentRoom` is
truthy, the socket is no longer a member of that room, every other member stays,
the other rooms keep their entries, and the room is gone from `rooms` when no
other member is left. -/
theorem onClose_truthy_room (sv : Server) (c : Closure)
    (ht : c.currentRoom.truthy = true) :
    c.ws ∉ Rooms.members (onClose sv c).state.rooms c.currentRoom ∧
    (∀ d, d ≠ c.ws → (d ∈ Rooms.members (onClose sv c).state.rooms c.currentRoom
      ↔ d ∈ Rooms.members sv.rooms c.currentRoom)) ∧
    (∀ other, other ≠ c.currentRoom →
      Rooms.get (onClose sv c).state.rooms other = Rooms.get sv.rooms other) ∧
    ((∀ d ∈ Rooms.members sv.rooms c.currentRoom, d = c.ws) →
      Rooms.has (onClose sv c).state.rooms c.currentRoom = false) := by
  rw [onClose_eq]
  simp only [ht, if_true]
  refine ⟨?_, ?_, ?_, ?_⟩
  · rw [Rooms.mem_members_leave]
    simp
  · intro d hd
    rw [Rooms.mem_members_leave]
    simp [hd]
  · intro other ho
    rw [Rooms.get_leave]
    simp [ho]
  · intro hall
    rw [Rooms.has_eq_isSome, Rooms.get_leave]
    simp only [if_true]
    cases hg : Rooms.get sv.rooms c.currentRoom with
    | none => rfl
    | some s =>
      have he : JSSet.delete s c.ws = [] := by
        rw [List.eq_nil_iff_forall_not_mem]
        intro d hd
        rw [JSSet.mem_delete] at hd
        have : d ∈ Rooms.members sv.rooms c.currentRoom := by
          simpa [Rooms.members, hg] using hd.1
        exact hd.2 (hall d this)
      simp [he]

/-- Claim C7 at the empty room name: after `join` with room `""` and the close of
the connection, the socket is still a member of `""` and the room is still a key
of `rooms`, because `if (currentRoom)` is false for the empty string; a `leave`
message in place of the close empties the registry. -/
theorem close_keeps_empty_named_room :
    (run xy World.init joinEmptyThenClose).server.rooms = [(JSValue.string "", [1])] ∧
    1 ∈ Rooms.members (run xy World.init joinEmptyThenClose).server.rooms (JSValue.string "") ∧
    Rooms.has (run xy World.init joinEmptyThenClose).server.rooms (JSValue.string "") = true ∧
    (run xy World.init
      [Event.message allOpen 1 (joinFrame (JSValue.string "")),
       Event.message allOpen 1 (bareFrame "leave")]).server.rooms = [] := by
  decide

/-! ## Forwarding after `leave` -/

/-- Claim C8 at a concrete run: the `leave` case does not reset `currentRoom`, so
the offer X sends after leaving `"r1"` is still delivered to Y, with `from` set to
the identifier of X. -/
theorem offer_after_leave_is_delivered :
    (run xy World.init leaveThenOffer).server.rooms = [(JSValue.string "r1", [2])] ∧
    (run xy World.init leaveThenOffer).currentRoom 1 = JSValue.string "r1" ∧
    (run xy World.init leaveThenOffer).server.sent
      = [(1, joinedEnvelope (JSValue.string "r1") "x"),
         (2, joinedEnvelope (JSValue.string "r1") "y"),
         (2, [("type", JSValue.string "offer"), ("sdp", JSValue.string "abc"),
              ("from", JSValue.string "x")])] := by
  decide

/-! ## Forwarding before any `join` -/

/-- Claim C9 at a concrete run: another connection has joined the room keyed by
`null`; the offer of a connection that never joined (its `currentRoom` is still
the initial `null`) is delivered to that connection. -/
theorem offer_before_join_reaches_null_room :
    (run xy World.init [Event.message allOpen 2 (joinFrame JSValue.null)]).currentRoom 1
      = JSValue.null ∧
    (run xy World.init nullRoomThenOffer).server.sent
      = [(2, joinedEnvelope JSValue.null "y"),
         (2, [("type", JSValue.string "offer"), ("sdp", JSValue.string "abc"),
              ("from", JSValue.string "x")])] := by
  decide

/-- Where a forwardable envelope from a connection that never joined has no
effect: the registry and the closure are always left as they were and nothing is
ever sent to the sender; the only sockets written to are the Open members of the
room keyed by `null`, and when `rooms` has no such key nothing is sent at all. -/
theorem forward_before_join (readyState : Socket → ReadyState) (sv : Server)
    (c : Closure) (data : Data) (type : String)
    (ht : type ∈ ["offer", "answer", "ice-candidate", "call-accepted", "call-ended", "reject"])
    (h : data.type = JSValue.string type) (hc : c.currentRoom = JSValue.null) :
    (onMessage readyState sv c (Frame.json data)).1.rooms = sv.rooms ∧
    (onMessage readyState sv c (Frame.json data)).2 = c ∧
    (∃ delivered : List (Socket × Envelope),
      (onMessage readyState sv c (Frame.json data)).1.sent = sv.sent ++ delivered ∧
      (∀ p ∈ delivered, p.1 ≠ c.ws ∧ p.1 ∈ Rooms.members sv.rooms JSValue.null ∧
        readyState p.1 = ReadyState.OPEN)) ∧
    (Rooms.has sv.rooms JSValue.null = false →
      onMessage readyState sv c (Frame.json data) = (sv, c)) := by
  rw [onMessage_forward readyState sv c data type ht h, hc]
  refine ⟨rfl, rfl, ⟨_, rfl, ?_⟩, ?_⟩
  · intro p hp
    simp only [List.mem_map, recipients, List.mem_filter, decide_eq_true_eq] at hp
    obtain ⟨d, ⟨hd, hne, ho⟩, rfl⟩ := hp
    exact ⟨hne, hd, ho⟩
  · intro hnull
    rw [Rooms.has_eq_isSome] at hnull
    have hg : Rooms.get sv.rooms JSValue.null = none := by
      cases hg : Rooms.get sv.rooms JSValue.null with
      | none => rfl
      | some s => simp [hg] at hnull
    simp [Rooms.members, hg, recipients]

end SignalingServer
